import Mathlib

/-!
Verification of the food-recall ingestion service (`src/api/main.py`,
`src/api/models.py`) against its specification.

The service mirrors FDA enforcement records into a MongoDB collection.
We embed the store as a list of documents keyed by `_id`, a document as a
finite map from field names to opaque (string) values, and a raw upstream
record as the parsed JSON object: an ordered list of field/value pairs.
The synchronization routine `fetch_and_update_data` is embedded as a pure
function of the current store and the (abstracted) HTTP response.
-/

namespace FoodRecall

/-! ### Data model -/

/-- A stored MongoDB document: a map from field names to opaque values. -/
abbrev Doc := String → Option String

/-- A raw record as parsed from the upstream JSON `results` array. -/
abbrev Rec := List (String × String)

/-- The MongoDB collection: documents keyed by `_id`. -/
abbrev Store := List (String × Doc)

/-- The document with no fields. -/
def emptyDoc : Doc := fun _ => none

/-- The `_id` keys of the stored documents. -/
def storeKeys (s : Store) : List String := s.map Prod.fst

/-- Lookup in a string-keyed association list (first match). -/
def dictGet {α : Type} : List (String × α) → String → Option α
  | [], _ => none
  | p :: l, k => if p.1 = k then some p.2 else dictGet l k

/-- Python dictionary lookup `record[k]` on a parsed JSON object
(JSON objects have unique keys, so first match is the value). -/
def lookupField (r : Rec) (k : String) : Option String := dictGet r k

/-- Set a single field of a document, as one `$set` assignment does. -/
def setField (d : Doc) (k v : String) : Doc :=
  fun fk => if fk = k then some v else d fk

/-- MongoDB `{"$set": record}` applied to a document: every field present
in `record` is written over the document; all other fields are kept. -/
def applySet (d : Doc) (r : Rec) : Doc :=
  r.foldl (fun acc p => setField acc p.1 p.2) d

/-- Look up the document stored under `_id = k`. -/
def lookupStore (s : Store) (k : String) : Option Doc := dictGet s k

/-- The value a sequence of `$set` assignments leaves in a field: the
last occurrence of the field in the record wins. -/
def lastField : Rec → String → Option String
  | [], _ => none
  | p :: r, fk =>
    match lastField r fk with
    | some v => some v
    | none => if p.1 = fk then some p.2 else none

/-- Whether some document matches the filter `{"_id": k}`. -/
def containsKey (s : Store) (k : String) : Bool :=
  (lookupStore s k).isSome

/-- The field of the document stored under `_id = k` (used to state
properties; `none` when the key or the field is absent). -/
def storeField (s : Store) (k fk : String) : Option String :=
  ((lookupStore s k).getD emptyDoc) fk

/-- MongoDB `collection.update_one({"_id": k}, {"$set": r}, upsert=True)`:
if a document with `_id = k` exists, apply `$set r` to it (at most one
document is updated); otherwise insert a fresh document `{_id: k}` with
`$set r` applied to it. -/
def update_one : Store → String → Rec → Store
  | [], k, r => [(k, applySet emptyDoc r)]
  | p :: s, k, r =>
    if p.1 = k then (k, applySet p.2 r) :: s else p :: update_one s k r

/-! ### The synchronization routine -/

/-- Outcome of `requests.get(...)` / `response.raise_for_status()` /
`response.json()` as seen by `fetch_and_update_data`:
a non-success HTTP status (so `raise_for_status` raises), a body that is
not valid JSON (so `.json()` raises), or a parsed JSON object whose
`results` key holds a list of records when present. -/
inductive FetchResult where
  | httpError (status : Nat)
  | malformed
  | ok (results : Option (List Rec))

/-- The upsert loop of `fetch_and_update_data`: for each record, write it
under `_id = record["recall_number"]`.  A record without a
`recall_number` key raises `KeyError`, which the surrounding
`try/except` catches: the loop aborts there, keeping earlier writes, and
the error is logged (`false` flag). -/
def syncLoop : Store → List Rec → Store × Bool
  | s, [] => (s, true)
  | s, r :: rs =>
    match lookupField r "recall_number" with
    | none => (s, false)
    | some k => syncLoop (update_one s k r) rs

/-- Query parameters of the single upstream request. -/
structure QueryParams where
  search : String
  limit : Nat
deriving DecidableEq, Repr

/-- An HTTP request: URL and query parameters. -/
abbrev Request := String × QueryParams

/-- The fixed FDA endpoint (`FDA_API_URL` in `main.py`). -/
def FDA_API_URL : String := "https://api.fda.gov/food/enforcement.json"

/-- The fixed query (`FDA_API_QUERY` in `main.py`). -/
def FDA_API_QUERY : QueryParams :=
  { search := "distribution_pattern:\"nationwide\"", limit := 15 }

/-- Result of one call of `fetch_and_update_data`: the store afterwards,
whether the success message (rather than an error) was printed, and the
network requests performed during the call. -/
structure SyncResult where
  store : Store
  succeeded : Bool
  requests : List Request

/-- `fetch_and_update_data` from `main.py`: one `requests.get` to the
fixed endpoint, then `raise_for_status`, then `.json()`, then the upsert
loop over `data.get("results", [])`; any exception is caught and logged.
The function never raises to its caller. -/
def fetch_and_update_data (s : Store) (resp : FetchResult) : SyncResult :=
  match resp with
  | FetchResult.httpError _ => ⟨s, false, [(FDA_API_URL, FDA_API_QUERY)]⟩
  | FetchResult.malformed => ⟨s, false, [(FDA_API_URL, FDA_API_QUERY)]⟩
  | FetchResult.ok results =>
    let res := syncLoop s (results.getD [])
    ⟨res.1, res.2, [(FDA_API_URL, FDA_API_QUERY)]⟩

/-- Whether the fetch step of a sync cycle failed. -/
def isFetchFailure : FetchResult → Bool
  | FetchResult.httpError _ => true
  | FetchResult.malformed => true
  | FetchResult.ok _ => false

/-! ### HTTP surface -/

/-- A response payload of the HTTP surface: `{"data": [...]}`,
`{"error": ...}` or `{"message": ...}`. -/
inductive ApiResponse where
  | dataResp (docs : List Doc)
  | errorResp (msg : String)
  | messageResp (msg : String)

/-- A document as returned by `collection.find()`: the stored fields
together with the `_id` field. -/
def findDoc (p : String × Doc) : Doc :=
  fun fk => if fk = "_id" then some p.1 else p.2 fk

/-- Python `str(...)` on a value that is already a string. -/
def pyStr (v : String) : String := v

/-- `format_data` from `main.py`: if `_id` is present, replace it by its
`str(...)` image; all other fields unchanged. -/
def format_data (record : Doc) : Doc :=
  fun fk => if fk = "_id" then (record "_id").map pyStr else record fk

/-- The `/data` route handler (`get_data` in `main.py`, success path):
`list(collection.find())`, formatted, wrapped in `{"data": ...}`.
No limit is applied to the query. -/
def get_data (s : Store) : ApiResponse :=
  ApiResponse.dataResp ((s.map findDoc).map format_data)

/-- The documents carried by a `/data` response. -/
def respDocs : ApiResponse → List Doc
  | ApiResponse.dataResp docs => docs
  | _ => []

/-- The `/update-data` route handler (`update_data` in `main.py`): run
`fetch_and_update_data` (which swallows its own errors), then return the
fixed message. -/
def update_data (s : Store) (resp : FetchResult) : Store × ApiResponse :=
  ((fetch_and_update_data s resp).store,
    ApiResponse.messageResp "Data update triggered.")

/-! ### Process startup -/

/-- Outcome of module initialization in `main.py`. -/
inductive StartupOutcome where
  | started (mongoUri : Option String) (dbName collName : String)
  | startupError (msg : String)
deriving DecidableEq, Repr

/-- Module-level startup of `main.py` over the process environment:
`MONGO_URI = os.getenv("MONGO_URI")` may be `None` and is passed to
`MongoClient` unchecked (the pymongo client then falls back to its
default host and connects lazily — no error).  `client[DB_NAME]` and
`db[COLLECTION_NAME]` raise `TypeError` when the name is `None`
(pymongo requires database and collection names to be `str`), which
aborts the process before any request is served. -/
def startup (env : String → Option String) : StartupOutcome :=
  match env "DB_NAME" with
  | none => StartupOutcome.startupError "TypeError: name must be an instance of str"
  | some dbn =>
    match env "COLLECTION_NAME" with
    | none => StartupOutcome.startupError "TypeError: name must be an instance of str"
    | some cn => StartupOutcome.started (env "MONGO_URI") dbn cn

/-- Whether startup aborted with a configuration/type error. -/
def isStartupError : StartupOutcome → Bool
  | StartupOutcome.startupError _ => true
  | _ => false

/-- The fields of the `Recall` dataclass in `src/api/models.py`. -/
def recallFields : List String :=
  ["country", "city", "reason_for_recall", "classification",
   "product_description", "code_info", "report_date", "recall_number",
   "recalling_firm", "initial_firm_notification", "status",
   "distribution_pattern"]

/-! ### Basic lemmas about the store embedding -/

theorem dictGet_eq_none {α : Type} (l : List (String × α)) (k : String) :
    dictGet l k = none ↔ k ∉ l.map Prod.fst := by
  induction l with
  | nil => simp [dictGet]
  | cons p l ih =>
    by_cases h : p.1 = k
    · subst h
      simp [dictGet]
    · have hne : ¬k = p.1 := fun hk => h hk.symm
      simp [dictGet, h, ih, hne]

theorem containsKey_iff (s : Store) (k : String) :
    containsKey s k = true ↔ k ∈ storeKeys s := by
  simp [containsKey, lookupStore, storeKeys, Option.isSome_iff_ne_none, ne_eq,
    dictGet_eq_none]

theorem containsKey_eq_false (s : Store) (k : String) :
    containsKey s k = false ↔ k ∉ storeKeys s := by
  rw [← Bool.not_eq_true, not_iff_not, containsKey_iff]

theorem applySet_cons (d : Doc) (p : String × String) (r : Rec) :
    applySet d (p :: r) = applySet (setField d p.1 p.2) r := rfl

theorem applySet_apply (d : Doc) (r : Rec) (fk : String) :
    applySet d r fk =
      match lastField r fk with
      | some v => some v
      | none => d fk := by
  induction r generalizing d with
  | nil => rfl
  | cons p r ih =>
    rw [applySet_cons, ih]
    cases h : lastField r fk with
    | some v => simp [lastField, h]
    | none =>
      by_cases hp : p.1 = fk
      · subst hp
        simp [lastField, h, setField]
      · have hne : ¬fk = p.1 := fun hk => hp hk.symm
        simp [lastField, h, setField, hp, hne]

theorem applySet_apply_of_lastField_none {d : Doc} {r : Rec} {fk : String}
    (h : lastField r fk = none) : applySet d r fk = d fk := by
  rw [applySet_apply, h]

theorem lastField_eq_none (r : Rec) (fk : String) :
    lastField r fk = none ↔ fk ∉ r.map Prod.fst := by
  induction r with
  | nil => simp [lastField]
  | cons p r ih =>
    have step : lastField (p :: r) fk = none ↔ lastField r fk = none ∧ ¬p.1 = fk := by
      cases h : lastField r fk <;> by_cases hp : p.1 = fk <;> simp [lastField, h, hp]
    rw [step, ih, List.map_cons]
    constructor
    · rintro ⟨hn, hne⟩ hmem
      rcases List.mem_cons.mp hmem with h1 | h2
      · exact hne h1.symm
      · exact hn h2
    · intro hmem
      exact ⟨fun h2 => hmem (List.mem_cons.mpr (Or.inr h2)),
        fun h1 => hmem (List.mem_cons.mpr (Or.inl h1.symm))⟩

theorem lookupField_eq_none (r : Rec) (fk : String) :
    lookupField r fk = none ↔ fk ∉ r.map Prod.fst := dictGet_eq_none r fk

theorem lastField_eq_none_of_lookupField_none {r : Rec} {fk : String}
    (h : lookupField r fk = none) : lastField r fk = none :=
  (lastField_eq_none r fk).mpr ((lookupField_eq_none r fk).mp h)

theorem lookupStore_update_one (s : Store) (k : String) (r : Rec) (k' : String) :
    lookupStore (update_one s k r) k' =
      if k' = k then some (applySet ((lookupStore s k).getD emptyDoc) r)
      else lookupStore s k' := by
  induction s with
  | nil =>
    by_cases h : k' = k
    · subst h
      simp [update_one, lookupStore, dictGet]
    · have hne : ¬k = k' := fun hk => h hk.symm
      simp [update_one, lookupStore, dictGet, h, hne]
  | cons p s ih =>
    by_cases hp : p.1 = k
    · by_cases h : k' = k
      · subst h
        simp [update_one, lookupStore, dictGet, hp]
      · have hne : ¬k = k' := fun hk => h hk.symm
        have hpk : ¬p.1 = k' := by rw [hp]; exact hne
        simp [update_one, lookupStore, dictGet, hp, h, hne, hpk]
    · by_cases hq : p.1 = k'
      · have h : ¬k' = k := fun hk => hp (hq.trans hk)
        simp [update_one, lookupStore, dictGet, hp, hq, h]
      · have := ih
        simp only [lookupStore, dictGet] at this ⊢
        simp [update_one, dictGet, hp, hq, this]

theorem storeKeys_update_one (s : Store) (k : String) (r : Rec) :
    storeKeys (update_one s k r) =
      if containsKey s k then storeKeys s else storeKeys s ++ [k] := by
  induction s with
  | nil => simp [update_one, storeKeys, containsKey, lookupStore, dictGet]
  | cons p s ih =>
    by_cases hp : p.1 = k
    · simp [update_one, storeKeys, containsKey, lookupStore, dictGet, hp]
    · have hck : containsKey (p :: s) k = containsKey s k := by
        simp [containsKey, lookupStore, dictGet, hp]
      simp only [update_one, hp, if_false, hck]
      cases h : containsKey s k <;>
        simp only [storeKeys, List.map_cons] at ih ⊢ <;>
        rw [h] at ih <;> simp [ih]

theorem nodup_storeKeys_update_one {s : Store} (k : String) (r : Rec)
    (h : (storeKeys s).Nodup) : (storeKeys (update_one s k r)).Nodup := by
  rw [storeKeys_update_one]
  cases hc : containsKey s k with
  | true => simpa using h
  | false =>
    have hk : k ∉ storeKeys s := (containsKey_eq_false s k).mp hc
    simp [List.nodup_append, h, hk]

/-! ### Characterizing the upsert loop

The loop of `fetch_and_update_data` processes records until the first
record lacking a `recall_number`, and at each key the written document is
the chain of `$set` applications of the records carrying that key. -/

/-- One iteration of the upsert loop (absent `recall_number` leaves the
store untouched, the abort is accounted for separately). -/
def applyRec (s : Store) (r : Rec) : Store :=
  match lookupField r "recall_number" with
  | none => s
  | some k => update_one s k r

/-- Folding the upsert step over a list of records. -/
def applyRecs (s : Store) (l : List Rec) : Store := l.foldl applyRec s

/-- The records the loop actually processes: everything before the first
record without a `recall_number` key. -/
def validPrefix : List Rec → List Rec
  | [] => []
  | r :: rs =>
    match lookupField r "recall_number" with
    | none => []
    | some _ => r :: validPrefix rs

/-- Whether every fetched record carries a `recall_number` (so the loop
finishes without a `KeyError`). -/
def allValid : List Rec → Bool
  | [] => true
  | r :: rs => (lookupField r "recall_number").isSome && allValid rs

theorem syncLoop_eq (s : Store) (rs : List Rec) :
    syncLoop s rs = (applyRecs s (validPrefix rs), allValid rs) := by
  induction rs generalizing s with
  | nil => rfl
  | cons r rs ih =>
    cases h : lookupField r "recall_number" with
    | none => simp [syncLoop, validPrefix, allValid, h, applyRecs]
    | some k =>
      simp [syncLoop, validPrefix, allValid, h, applyRecs, applyRec, ih]

/-- The records of `l` whose `recall_number` is `k`. -/
def recsFor (l : List Rec) (k : String) : List Rec :=
  l.filter (fun r => decide (lookupField r "recall_number" = some k))

/-- Chain of `$set` applications over a document. -/
def docChain (d : Doc) (L : List Rec) : Doc := L.foldl applySet d

/-- Chain of upserts at one key: no matching record leaves the slot as it
was, otherwise the document is built from the old one (or from scratch). -/
def optChain (od : Option Doc) (L : List Rec) : Option Doc :=
  match L with
  | [] => od
  | _ :: _ => some (docChain (od.getD emptyDoc) L)

theorem lookupStore_applyRecs (s : Store) (l : List Rec) (k : String) :
    lookupStore (applyRecs s l) k = optChain (lookupStore s k) (recsFor l k) := by
  induction l generalizing s with
  | nil => rfl
  | cons r l ih =>
    have hstep : applyRecs s (r :: l) = applyRecs (applyRec s r) l := rfl
    rw [hstep, ih]
    cases h : lookupField r "recall_number" with
    | none =>
      have ha : applyRec s r = s := by simp [applyRec, h]
      have hf : recsFor (r :: l) k = recsFor l k := by
        simp [recsFor, List.filter_cons, h]
      rw [ha, hf]
    | some k0 =>
      have ha : applyRec s r = update_one s k0 r := by simp [applyRec, h]
      by_cases hk : k0 = k
      · subst hk
        have hf : recsFor (r :: l) k0 = r :: recsFor l k0 := by
          simp [recsFor, List.filter_cons, h]
        rw [ha, hf, lookupStore_update_one, if_pos rfl]
        cases hl : recsFor l k0 with
        | nil => simp [optChain, docChain]
        | cons a L => simp [optChain, docChain]
      · have hf : recsFor (r :: l) k = recsFor l k := by
          simp [recsFor, List.filter_cons, h, hk]
        rw [ha, hf, lookupStore_update_one, if_neg (fun hkk => hk hkk.symm)]

/-- The `recall_number`s occurring in a list of records. -/
def recKeys (l : List Rec) : List String :=
  l.filterMap (fun r => lookupField r "recall_number")

theorem recKeys_cons_none {r : Rec} (l : List Rec)
    (h : lookupField r "recall_number" = none) : recKeys (r :: l) = recKeys l := by
  simp [recKeys, List.filterMap_cons, h]

theorem recKeys_cons_some {r : Rec} (l : List Rec) {k0 : String}
    (h : lookupField r "recall_number" = some k0) :
    recKeys (r :: l) = k0 :: recKeys l := by
  simp [recKeys, List.filterMap_cons, h]

theorem mem_storeKeys_update_one (s : Store) (k : String) (r : Rec)
    {k' : String} (h : k' ∈ storeKeys s) :
    k' ∈ storeKeys (update_one s k r) := by
  rw [storeKeys_update_one]
  split
  · exact h
  · exact List.mem_append_left _ h

theorem self_mem_storeKeys_update_one (s : Store) (k : String) (r : Rec) :
    k ∈ storeKeys (update_one s k r) := by
  rw [storeKeys_update_one]
  split
  · exact (containsKey_iff s k).mp (by assumption)
  · exact List.mem_append_right _ (List.mem_singleton.mpr rfl)

theorem mem_storeKeys_applyRecs (l : List Rec) {s : Store} {k' : String}
    (h : k' ∈ storeKeys s) : k' ∈ storeKeys (applyRecs s l) := by
  induction l generalizing s with
  | nil => exact h
  | cons r l ih =>
    show k' ∈ storeKeys (applyRecs (applyRec s r) l)
    cases hr : lookupField r "recall_number" with
    | none => exact ih (by simpa [applyRec, hr] using h)
    | some k0 =>
      exact ih (by simpa [applyRec, hr] using mem_storeKeys_update_one s k0 r h)

theorem recKeys_subset_applyRecs (s : Store) (l : List Rec) :
    ∀ k ∈ recKeys l, k ∈ storeKeys (applyRecs s l) := by
  induction l generalizing s with
  | nil => intro k hk; simp [recKeys] at hk
  | cons r l ih =>
    intro k hk
    show k ∈ storeKeys (applyRecs (applyRec s r) l)
    cases hr : lookupField r "recall_number" with
    | none =>
      have : k ∈ recKeys l := recKeys_cons_none l hr ▸ hk
      exact ih _ k this
    | some k0 =>
      have : k = k0 ∨ k ∈ recKeys l :=
        List.mem_cons.mp (recKeys_cons_some l hr ▸ hk)
      rcases this with h1 | h2
      · subst h1
        have ha : applyRec s r = update_one s k r := by simp [applyRec, hr]
        rw [ha]
        exact mem_storeKeys_applyRecs l (self_mem_storeKeys_update_one s k r)
      · exact ih _ k h2

theorem containsKey_eq_of_storeKeys_eq {s₁ s₂ : Store}
    (h : storeKeys s₁ = storeKeys s₂) (k : String) :
    containsKey s₁ k = containsKey s₂ k := by
  cases hc : containsKey s₂ k with
  | true => exact (containsKey_iff s₁ k).mpr (h ▸ (containsKey_iff s₂ k).mp hc)
  | false =>
    exact (containsKey_eq_false s₁ k).mpr (h ▸ (containsKey_eq_false s₂ k).mp hc)

theorem storeKeys_applyRecs_of_contains (l : List Rec) :
    ∀ t : Store, (∀ k ∈ recKeys l, containsKey t k = true) →
      storeKeys (applyRecs t l) = storeKeys t := by
  induction l with
  | nil => intro t _; rfl
  | cons r l ih =>
    intro t h
    show storeKeys (applyRecs (applyRec t r) l) = storeKeys t
    cases hr : lookupField r "recall_number" with
    | none =>
      have ha : applyRec t r = t := by simp [applyRec, hr]
      rw [ha]
      exact ih t (fun k hk => h k ((recKeys_cons_none l hr).symm ▸ hk))
    | some k0 =>
      have ha : applyRec t r = update_one t k0 r := by simp [applyRec, hr]
      have hk0 : containsKey t k0 = true :=
        h k0 ((recKeys_cons_some l hr).symm ▸ List.mem_cons_self k0 _)
      have hkeys : storeKeys (update_one t k0 r) = storeKeys t := by
        rw [storeKeys_update_one, if_pos hk0]
      rw [ha, ih (update_one t k0 r) ?_, hkeys]
      intro k hk
      rw [containsKey_eq_of_storeKeys_eq hkeys]
      exact h k ((recKeys_cons_some l hr).symm ▸ List.mem_cons_of_mem k0 hk)

theorem nodup_storeKeys_applyRecs (l : List Rec) {s : Store}
    (h : (storeKeys s).Nodup) : (storeKeys (applyRecs s l)).Nodup := by
  induction l generalizing s with
  | nil => exact h
  | cons r l ih =>
    show (storeKeys (applyRecs (applyRec s r) l)).Nodup
    cases hr : lookupField r "recall_number" with
    | none => exact ih (by simpa [applyRec, hr] using h)
    | some k0 =>
      exact ih (by simpa [applyRec, hr] using nodup_storeKeys_update_one k0 r h)

theorem store_ext : ∀ (s₁ s₂ : Store), storeKeys s₁ = storeKeys s₂ →
    (storeKeys s₁).Nodup → (∀ k, lookupStore s₁ k = lookupStore s₂ k) →
    s₁ = s₂ := by
  intro s₁
  induction s₁ with
  | nil =>
    intro s₂ hkeys _ _
    have : s₂.map Prod.fst = [] := hkeys.symm
    exact (List.map_eq_nil_iff.mp this).symm
  | cons p s₁ ih =>
    intro s₂ hkeys hnd hlook
    cases s₂ with
    | nil => exact absurd hkeys (by simp [storeKeys])
    | cons q s₂ =>
      obtain ⟨p1, p2⟩ := p
      obtain ⟨q1, q2⟩ := q
      simp only [storeKeys, List.map_cons, List.cons.injEq] at hkeys
      obtain ⟨hpq, htails⟩ := hkeys
      subst hpq
      have hv : p2 = q2 := by
        have := hlook p1
        simpa [lookupStore, dictGet] using this
      subst hv
      have hnd' : p1 ∉ List.map Prod.fst s₁ ∧ (List.map Prod.fst s₁).Nodup := by
        rw [storeKeys, List.map_cons, List.nodup_cons] at hnd
        exact hnd
      have hnotmem : p1 ∉ storeKeys s₁ := hnd'.1
      have hnotmem₂ : p1 ∉ storeKeys s₂ := by
        show p1 ∉ s₂.map Prod.fst
        rw [← htails]
        exact hnd'.1
      have htl : ∀ k, lookupStore s₁ k = lookupStore s₂ k := by
        intro k
        by_cases hk : k = p1
        · subst hk
          rw [show (lookupStore s₁ k : Option Doc) = none from
              (dictGet_eq_none s₁ k).mpr hnotmem,
            show (lookupStore s₂ k : Option Doc) = none from
              (dictGet_eq_none s₂ k).mpr hnotmem₂]
        · have := hlook k
          have hne : ¬p1 = k := fun hkk => hk hkk.symm
          simpa [lookupStore, dictGet, hne] using this
      have := ih s₂ htails hnd'.2 htl
      rw [this]

/-! ### Idempotence of replaying a `$set` chain -/

theorem applySet_append (d : Doc) (r₁ r₂ : Rec) :
    applySet d (r₁ ++ r₂) = applySet (applySet d r₁) r₂ := by
  simp [applySet, List.foldl_append]

theorem docChain_eq_applySet_flatten (d : Doc) (L : List Rec) :
    docChain d L = applySet d L.flatten := by
  induction L generalizing d with
  | nil => rfl
  | cons r L ih =>
    show docChain (applySet d r) L = applySet d ((r :: L).flatten)
    rw [ih, List.flatten_cons, applySet_append]

theorem applySet_self_idem (d : Doc) (r : Rec) :
    applySet (applySet d r) r = applySet d r := by
  funext fk
  rw [applySet_apply (applySet d r) r fk, applySet_apply d r fk]
  cases h : lastField r fk <;> rfl

theorem docChain_self_idem (d : Doc) (L : List Rec) :
    docChain (docChain d L) L = docChain d L := by
  calc docChain (docChain d L) L
      = applySet (docChain d L) L.flatten := docChain_eq_applySet_flatten _ _
    _ = applySet (applySet d L.flatten) L.flatten := by
        rw [docChain_eq_applySet_flatten]
    _ = applySet d L.flatten := applySet_self_idem _ _
    _ = docChain d L := (docChain_eq_applySet_flatten _ _).symm

theorem optChain_self_idem (od : Option Doc) (L : List Rec) :
    optChain (optChain od L) L = optChain od L := by
  cases L with
  | nil => rfl
  | cons r L =>
    show some (docChain ((some (docChain (od.getD emptyDoc) (r :: L))).getD emptyDoc)
        (r :: L)) = some (docChain (od.getD emptyDoc) (r :: L))
    rw [Option.getD_some, docChain_self_idem]

/-! ### Idempotence of the upsert loop -/

theorem applyRecs_replay {s : Store} (l : List Rec)
    (hn : (storeKeys s).Nodup) : applyRecs (applyRecs s l) l = applyRecs s l := by
  have hsub : ∀ k ∈ recKeys l, containsKey (applyRecs s l) k = true := fun k hk =>
    (containsKey_iff _ _).mpr (recKeys_subset_applyRecs s l k hk)
  have hkeys : storeKeys (applyRecs (applyRecs s l) l) = storeKeys (applyRecs s l) :=
    storeKeys_applyRecs_of_contains l (applyRecs s l) hsub
  have hnd : (storeKeys (applyRecs (applyRecs s l) l)).Nodup :=
    nodup_storeKeys_applyRecs l (nodup_storeKeys_applyRecs l hn)
  refine store_ext _ _ hkeys hnd ?_
  intro k
  rw [lookupStore_applyRecs (applyRecs s l) l k, lookupStore_applyRecs s l k,
    optChain_self_idem]

theorem syncLoop_replay (s : Store) (rs : List Rec)
    (hn : (storeKeys s).Nodup) : syncLoop (syncLoop s rs).1 rs = syncLoop s rs := by
  rw [syncLoop_eq s rs]
  rw [syncLoop_eq]
  simp [applyRecs_replay _ hn]

theorem fetch_store_singleton (s : Store) (r : Rec) {k : String}
    (hk : lookupField r "recall_number" = some k) :
    (fetch_and_update_data s (FetchResult.ok (some [r]))).store = update_one s k r := by
  simp [fetch_and_update_data, syncLoop, hk]

/-- Whether an HTTP-surface response is the error payload. -/
def isErrorPayload : ApiResponse → Bool
  | ApiResponse.errorResp _ => true
  | _ => false

/-! ### The claims -/

/-- Claim C1: `sync()` is idempotent — for every upstream response, running
the synchronization (the upsert loop of `fetch_and_update_data`) twice in
succession over the same list of fetched records yields a store state
identical to the state after the first run.  Stated for stores whose `_id`
keys are distinct, which the store enforces. -/
theorem c1_sync_idempotent (s : Store) (resp : FetchResult)
    (hn : (storeKeys s).Nodup) :
    fetch_and_update_data (fetch_and_update_data s resp).store resp =
      fetch_and_update_data s resp := by
  cases resp with
  | httpError status => rfl
  | malformed => rfl
  | ok results =>
    have h := syncLoop_replay s (results.getD []) hn
    simp only [fetch_and_update_data]
    rw [h]

/-- Witness for C1 at a concrete store and upstream response. -/
theorem c1_sync_idempotent_witness :
    (storeKeys [("F-001", emptyDoc)]).Nodup ∧
      fetch_and_update_data
          (fetch_and_update_data [("F-001", emptyDoc)]
            (FetchResult.ok (some [[("recall_number", "F-002"), ("status", "Ongoing")]]))).store
          (FetchResult.ok (some [[("recall_number", "F-002"), ("status", "Ongoing")]])) =
        fetch_and_update_data [("F-001", emptyDoc)]
          (FetchResult.ok (some [[("recall_number", "F-002"), ("status", "Ongoing")]])) :=
  ⟨by decide, c1_sync_idempotent _ _ (by decide)⟩

/-- Claim C2 is false on the code: the upsert uses `{"$set": record}`,
which merges the fetched fields into the stored document.  Concretely, the
store holds a document at key `R1` with a field `old_field` the fetched
record does not carry; after the sync cycle the field is still there, so
the previous entry is not fully replaced. -/
theorem c2_counterexample :
    storeField
        (fetch_and_update_data [("R1", setField emptyDoc "old_field" "x")]
          (FetchResult.ok (some [[("recall_number", "R1")]]))).store
        "R1" "old_field" = some "x"
    ∧ lookupField [("recall_number", "R1")] "old_field" = none := by
  constructor
  · decide
  · decide

/-- Claim C2 (amended): after a sync cycle fetching a record `r` with
`recall_number = k`, the store contains exactly one entry keyed `k`, and
that entry is the previous document (or the empty document) with `r`'s
fields written over it (`$set` merge): every field of `r` holds `r`'s
value, and every field absent from `r` keeps its previous value — a merge,
not a full replace. -/
theorem c2_upsert_merge (s : Store) (r : Rec) (k : String)
    (hn : (storeKeys s).Nodup)
    (hk : lookupField r "recall_number" = some k) :
    ((storeKeys (fetch_and_update_data s (FetchResult.ok (some [r]))).store).count k = 1)
    ∧ lookupStore (fetch_and_update_data s (FetchResult.ok (some [r]))).store k
        = some (applySet ((lookupStore s k).getD emptyDoc) r)
    ∧ (∀ fk v, lastField r fk = some v →
        storeField (fetch_and_update_data s (FetchResult.ok (some [r]))).store k fk = some v)
    ∧ (∀ fk, lookupField r fk = none →
        storeField (fetch_and_update_data s (FetchResult.ok (some [r]))).store k fk
          = storeField s k fk) := by
  rw [fetch_store_singleton s r hk]
  refine ⟨?_, ?_, ?_, ?_⟩
  · rw [storeKeys_update_one]
    cases hc : containsKey s k with
    | true =>
      simp only [if_pos]
      exact List.count_eq_one_of_mem hn ((containsKey_iff s k).mp hc)
    | false =>
      simp only [Bool.false_eq_true, if_false, List.count_append]
      rw [List.count_eq_zero_of_not_mem ((containsKey_eq_false s k).mp hc),
        List.count_singleton_self]
  · rw [lookupStore_update_one, if_pos rfl]
  · intro fk v hfv
    rw [storeField, lookupStore_update_one, if_pos rfl, Option.getD_some,
      applySet_apply, hfv]
  · intro fk hfk
    rw [storeField, lookupStore_update_one, if_pos rfl, Option.getD_some,
      applySet_apply_of_lastField_none (lastField_eq_none_of_lookupField_none hfk)]
    rfl

/-- Witness for C2 (amended) at a concrete store and record. -/
theorem c2_upsert_merge_witness :
    (storeKeys [("F-001", emptyDoc)]).Nodup ∧
      lookupField [("recall_number", "F-001"), ("status", "Completed")] "recall_number"
        = some "F-001" ∧
      (((storeKeys (fetch_and_update_data [("F-001", emptyDoc)]
          (FetchResult.ok (some [[("recall_number", "F-001"), ("status", "Completed")]]))).store).count
            "F-001" = 1)
      ∧ lookupStore (fetch_and_update_data [("F-001", emptyDoc)]
            (FetchResult.ok (some [[("recall_number", "F-001"), ("status", "Completed")]]))).store
            "F-001"
          = some (applySet ((lookupStore [("F-001", emptyDoc)] "F-001").getD emptyDoc)
              [("recall_number", "F-001"), ("status", "Completed")])
      ∧ (∀ fk v, lastField [("recall_number", "F-001"), ("status", "Completed")] fk = some v →
          storeField (fetch_and_update_data [("F-001", emptyDoc)]
            (FetchResult.ok (some [[("recall_number", "F-001"), ("status", "Completed")]]))).store
            "F-001" fk = some v)
      ∧ (∀ fk, lookupField [("recall_number", "F-001"), ("status", "Completed")] fk = none →
          storeField (fetch_and_update_data [("F-001", emptyDoc)]
            (FetchResult.ok (some [[("recall_number", "F-001"), ("status", "Completed")]]))).store
            "F-001" fk
            = storeField [("F-001", emptyDoc)] "F-001" fk)) :=
  ⟨by decide, by decide, c2_upsert_merge _ _ _ (by decide) (by decide)⟩

/-- Claim C3: if the fetch step fails (non-success HTTP status, so
`raise_for_status` raises, or a malformed body, so `.json()` raises), the
sync cycle aborts before the upsert loop: the store is left exactly as it
was, and the failure is logged rather than a success. -/
theorem c3_fetch_failure_preserves_store (s : Store) (resp : FetchResult)
    (h : isFetchFailure resp = true) :
    (fetch_and_update_data s resp).store = s ∧
      (fetch_and_update_data s resp).succeeded = false := by
  cases resp with
  | httpError status => exact ⟨rfl, rfl⟩
  | malformed => exact ⟨rfl, rfl⟩
  | ok results => exact absurd h (by simp [isFetchFailure])

/-- Witness for C3 at a concrete store and failing response. -/
theorem c3_fetch_failure_preserves_store_witness :
    isFetchFailure (FetchResult.httpError 503) = true ∧
      ((fetch_and_update_data [("F-001", emptyDoc)] (FetchResult.httpError 503)).store
          = [("F-001", emptyDoc)] ∧
        (fetch_and_update_data [("F-001", emptyDoc)] (FetchResult.httpError 503)).succeeded
          = false) :=
  ⟨by decide, c3_fetch_failure_preserves_store _ _ (by decide)⟩

/-- Claim C4 is false on the code: `fetch_and_update_data` swallows every
exception (it only prints), and the `/update-data` handler then returns
the fixed success message.  At a failing fetch (HTTP 503) the endpoint
still answers `{"message": "Data update triggered."}` and not an error
payload. -/
theorem c4_counterexample :
    isFetchFailure (FetchResult.httpError 503) = true
    ∧ (update_data [] (FetchResult.httpError 503)).2 =
        ApiResponse.messageResp "Data update triggered."
    ∧ isErrorPayload (update_data [] (FetchResult.httpError 503)).2 = false :=
  ⟨rfl, rfl, rfl⟩

/-- Claim C4 (amended): the manual-update endpoint never surfaces sync
failures — for every store and every upstream outcome, including failing
ones, it returns the fixed success message `Data update triggered.`;
failures are only logged server-side. -/
theorem c4_update_endpoint_always_success (s : Store) (resp : FetchResult) :
    (update_data s resp).2 = ApiResponse.messageResp "Data update triggered." := rfl

/-- Claim C5 is false on the code: the `/data` handler runs
`list(collection.find())` with no limit, so a store holding 1001 records
yields a 1001-record response — there is no 1000-record cap. -/
theorem c5_counterexample :
    ¬ ((respDocs (get_data ((List.range 1001).map
        (fun i => (toString i, emptyDoc))))).length ≤ 1000) := by
  simp [respDocs, get_data]

/-- Claim C5 (amended): the read path backing `/data` returns every stored
record — the response always has exactly as many records as the store, with
no cap applied. -/
theorem c5_get_data_unbounded (s : Store) :
    (respDocs (get_data s)).length = s.length := by
  simp [respDocs, get_data]

/-- Claim C6: an upstream response whose `results` array is empty leaves
the store unchanged and completes normally (the success message is
printed, no exception), with zero writes and the single fixed request. -/
theorem c6_empty_results_noop (s : Store) :
    fetch_and_update_data s (FetchResult.ok (some [])) =
      ⟨s, true, [(FDA_API_URL, FDA_API_QUERY)]⟩ := rfl

/-- Claim C7: every sync cycle performs exactly one network request, to the
fixed enforcement-data endpoint, with the search parameter fixed to
`distribution_pattern:"nationwide"` and an integer limit in the range 5 to
15; there is no retry and no further page. -/
theorem c7_single_fixed_request (s : Store) (resp : FetchResult) :
    (fetch_and_update_data s resp).requests = [(FDA_API_URL, FDA_API_QUERY)]
    ∧ (fetch_and_update_data s resp).requests.length = 1
    ∧ FDA_API_QUERY.search = "distribution_pattern:\"nationwide\""
    ∧ 5 ≤ FDA_API_QUERY.limit ∧ FDA_API_QUERY.limit ≤ 15 := by
  cases resp <;> exact ⟨rfl, rfl, rfl, by decide, by decide⟩

/-- Claim C8 is false on the code: `MONGO_URI = os.getenv("MONGO_URI")` is
never checked — with `MONGO_URI` absent (but `DB_NAME` and
`COLLECTION_NAME` set) module initialization completes and the process
starts serving, because `MongoClient(None)` silently falls back to the
driver's default host. -/
theorem c8_counterexample :
    (fun k => if k = "DB_NAME" then some "recalls_db"
      else if k = "COLLECTION_NAME" then some "recalls" else none) "MONGO_URI" = none
    ∧ startup (fun k => if k = "DB_NAME" then some "recalls_db"
        else if k = "COLLECTION_NAME" then some "recalls" else none) =
      StartupOutcome.started none "recalls_db" "recalls" := by
  exact ⟨by decide, by decide⟩

/-- Claim C8 (amended): only `DB_NAME` and `COLLECTION_NAME` are required
at process start — absence of either aborts startup (a `TypeError` from
indexing the client with `None`) before any request is served, while an
absent `MONGO_URI` is passed unchecked to the Mongo client and startup
proceeds. -/
theorem c8_db_and_collection_required (env : String → Option String) :
    isStartupError (startup env) = true ↔
      (env "DB_NAME" = none ∨ env "COLLECTION_NAME" = none) := by
  cases h1 : env "DB_NAME" with
  | none => simp [startup, isStartupError, h1]
  | some dbn =>
    cases h2 : env "COLLECTION_NAME" with
    | none => simp [startup, isStartupError, h1, h2]
    | some cn => simp [startup, isStartupError, h1, h2]

/-- Claim C9: every record written by a sync cycle is stored with its
document `_id` equal to the record's `recall_number` string; every record
returned by `/data` carries an `_id` field whose value is the `str(...)`
image of the stored key; and `_id` is not among the fields of the `Recall`
record schema of `models.py`, so `/data` exposes a field outside the
schema. -/
theorem c9_id_exposure (s : Store) (r : Rec) (k : String)
    (hk : lookupField r "recall_number" = some k) :
    lookupStore (fetch_and_update_data s (FetchResult.ok (some [r]))).store k
        = some (applySet ((lookupStore s k).getD emptyDoc) r)
    ∧ (∀ p ∈ s, format_data (findDoc p) "_id" = some (pyStr p.1))
    ∧ "_id" ∉ recallFields := by
  refine ⟨?_, ?_, by decide⟩
  · rw [fetch_store_singleton s r hk, lookupStore_update_one, if_pos rfl]
  · intro p _
    simp [format_data, findDoc]

/-- Witness for C9 at a concrete store and record. -/
theorem c9_id_exposure_witness :
    lookupField [("recall_number", "F-100"), ("reason_for_recall", "Listeria")]
        "recall_number" = some "F-100" ∧
      (lookupStore (fetch_and_update_data [("X", emptyDoc)]
          (FetchResult.ok
            (some [[("recall_number", "F-100"), ("reason_for_recall", "Listeria")]]))).store
          "F-100"
        = some (applySet ((lookupStore [("X", emptyDoc)] "F-100").getD emptyDoc)
            [("recall_number", "F-100"), ("reason_for_recall", "Listeria")])
      ∧ (∀ p ∈ [(("X" : String), emptyDoc)],
          format_data (findDoc p) "_id" = some (pyStr p.1))
      ∧ "_id" ∉ recallFields) :=
  ⟨by decide, c9_id_exposure _ _ _ (by decide)⟩

/-- Claim C10: an upstream body that parses as JSON but has no `results`
key is handled by `data.get("results", [])` exactly like an empty results
array — the sync cycle performs zero writes, leaves the store unchanged
and completes normally instead of failing as malformed. -/
theorem c10_missing_results_key (s : Store) :
    fetch_and_update_data s (FetchResult.ok none)
        = fetch_and_update_data s (FetchResult.ok (some []))
    ∧ (fetch_and_update_data s (FetchResult.ok none)).store = s
    ∧ (fetch_and_update_data s (FetchResult.ok none)).succeeded = true :=
  ⟨rfl, rfl, rfl⟩

end FoodRecall
